import Mathlib

/-!
Verification of the SMS memory agent core (src/main.py): the link detector
`is_url_only`, the pending-URL store (`save_pending_url` / `get_pending_url`),
the save path (`save_item`) and the per-message correlator (`handle_sms`).

Strings are modelled as `List Char`.  Wall-clock instants are `PyDateTime`
records rendered to the exact texts the program compares: the pending store's
`created_at` column holds SQLite's `CURRENT_TIMESTAMP` text (UTC clock,
`YYYY-MM-DD HH:MM:SS`), while the lookup binds
`(datetime.now() - timedelta(minutes=2)).isoformat()` (local clock,
`YYYY-MM-DDTHH:MM:SS[.ffffff]`), and SQLite compares the two texts bytewise.
The SQLite tables become in-memory lists; the Claude classification and
answer calls become oracle functions supplied as parameters.  Parsed JSON
values from the classifier are modelled by `PyVal`, which also carries Python
truthiness, `dict.get`, `str()` and slicing semantics used by `save_item`.
-/

namespace SmsAgent

/-- Python whitespace class `\s` (ASCII part), also used by `str.strip()`. -/
def isSpace (c : Char) : Bool :=
  c = ' ' || c = '\t' || c = '\n' || c = '\x0d' || c = '\x0b' || c = '\x0c'

/-- Python `str.strip()`: drop whitespace from both ends. -/
def pyStrip (s : List Char) : List Char :=
  ((s.dropWhile isSpace).reverse.dropWhile isSpace).reverse

/-- The characters of the literal regex alternative `https://`. -/
def httpsPat : List Char := ['h', 't', 't', 'p', 's', ':', '/', '/']

/-- The characters of the literal regex alternative `http://`. -/
def httpPat : List Char := ['h', 't', 't', 'p', ':', '/', '/']

/--
One attempted match of the regex `https?://[^\s]+` at the head of `s`:
the scheme (greedy `s?`, so `https://` is tried first), then a non-empty run
of non-whitespace characters.  Returns the matched text and the rest of the
input after the match.
-/
def tryUrl (s : List Char) : Option (List Char × List Char) :=
  if httpsPat.isPrefixOf s then
    let rest := s.drop 8
    let body := rest.takeWhile (fun c => !isSpace c)
    if body.isEmpty then none
    else some (httpsPat ++ body, rest.drop body.length)
  else if httpPat.isPrefixOf s then
    let rest := s.drop 7
    let body := rest.takeWhile (fun c => !isSpace c)
    if body.isEmpty then none
    else some (httpPat ++ body, rest.drop body.length)
  else none

/--
Regex scan over the whole input (fuel-indexed so that it is structural and
kernel-computable): collects the leftmost non-overlapping matches of
`https?://[^\s]+` in order, and the concatenation of all unmatched
characters.  The fuel is always instantiated with the length of the input,
which suffices because every match consumes at least one character.
-/
def findSubAux : Nat → List Char → List (List Char) × List Char
  | _, [] => ([], [])
  | 0, s => ([], s)
  | Nat.succ f, c :: rest =>
    match tryUrl (c :: rest) with
    | some (m, r) =>
      let p := findSubAux f r
      (m :: p.1, p.2)
    | none =>
      let p := findSubAux f rest
      (p.1, c :: p.2)

def findSub (s : List Char) : List (List Char) × List Char :=
  findSubAux s.length s

/-- `re.findall(r'https?://[^\s]+', s)`. -/
def findallUrls (s : List Char) : List (List Char) :=
  (findSub s).1

/-- `re.sub(r'https?://[^\s]+', '', s)`. -/
def removeUrls (s : List Char) : List Char :=
  (findSub s).2

/--
`is_url_only` from src/main.py: find all URLs in the stripped message;
if at least one URL exists and stripping all URL occurrences from the
(unstripped) message and trimming leaves fewer than 5 characters, the message
counts as link-only.  The second component is `urls[0] if urls else None`.
-/
def is_url_only (message : List Char) : Bool × Option (List Char) :=
  let urls := findallUrls (pyStrip message)
  let remaining := pyStrip (removeUrls message)
  if urls ≠ [] ∧ remaining.length < 5 then (true, urls.head?)
  else (false, urls.head?)

theorem tryUrl_length {s m r : List Char} (h : tryUrl s = some (m, r)) :
    r.length < s.length := by
  unfold tryUrl at h
  by_cases h8 : httpsPat.isPrefixOf s
  · simp only [h8, if_true] at h
    by_cases he : ((s.drop 8).takeWhile (fun c => !isSpace c)).isEmpty
    · simp [he] at h
    · simp only [he, if_false] at h
      obtain ⟨-, hr⟩ := Prod.mk.injEq .. ▸ Option.some.injEq .. ▸ h
      have hb : 0 < ((s.drop 8).takeWhile (fun c => !isSpace c)).length := by
        cases hq : (s.drop 8).takeWhile (fun c => !isSpace c) with
        | nil => rw [hq] at he; simp at he
        | cons a l => simp
      have hble : ((s.drop 8).takeWhile (fun c => !isSpace c)).length ≤ (s.drop 8).length :=
        (List.takeWhile_sublist _).length_le
      have hds : (s.drop 8).length ≤ s.length := by
        rw [List.length_drop]; omega
      rw [← hr, List.length_drop]
      omega
  · simp only [h8, if_false] at h
    by_cases h7 : httpPat.isPrefixOf s
    · simp only [h7, if_true] at h
      by_cases he : ((s.drop 7).takeWhile (fun c => !isSpace c)).isEmpty
      · simp [he] at h
      · simp only [he, if_false] at h
        obtain ⟨-, hr⟩ := Prod.mk.injEq .. ▸ Option.some.injEq .. ▸ h
        have hb : 0 < ((s.drop 7).takeWhile (fun c => !isSpace c)).length := by
          cases hq : (s.drop 7).takeWhile (fun c => !isSpace c) with
          | nil => rw [hq] at he; simp at he
          | cons a l => simp
        have hble : ((s.drop 7).takeWhile (fun c => !isSpace c)).length ≤ (s.drop 7).length :=
          (List.takeWhile_sublist _).length_le
        have hds : (s.drop 7).length ≤ s.length := by
          rw [List.length_drop]; omega
        rw [← hr, List.length_drop]
        omega
    · simp [h7] at h

/-- The fuel argument of `findSubAux` is irrelevant once it covers the input length. -/
theorem findSubAux_congr :
    ∀ (f : Nat) (g : Nat) (s : List Char), s.length ≤ f → s.length ≤ g →
      findSubAux f s = findSubAux g s := by
  intro f
  induction f with
  | zero =>
    intro g s hf _
    have : s = [] := by
      cases s with
      | nil => rfl
      | cons a l => simp at hf
    subst this
    cases g <;> rfl
  | succ f ih =>
    intro g s hf hg
    cases s with
    | nil => cases g <;> rfl
    | cons c rest =>
      cases g with
      | zero => simp at hg
      | succ g' =>
        show findSubAux (f + 1) (c :: rest) = findSubAux (g' + 1) (c :: rest)
        simp only [findSubAux]
        cases htry : tryUrl (c :: rest) with
        | none =>
          have h1 : rest.length ≤ f := by simp at hf; omega
          have h2 : rest.length ≤ g' := by simp at hg; omega
          rw [ih g' rest h1 h2]
        | some p =>
          obtain ⟨m, r⟩ := p
          have hlt : r.length < (c :: rest).length := tryUrl_length htry
          have h1 : r.length ≤ f := by simp at hlt hf; omega
          have h2 : r.length ≤ g' := by simp at hlt hg; omega
          dsimp only
          rw [ih g' r h1 h2]

theorem findSub_nil : findSub [] = ([], []) := rfl

/-- Clean unfolding equation for `findSub` on a cons cell. -/
theorem findSub_cons (c : Char) (rest : List Char) :
    findSub (c :: rest) =
      match tryUrl (c :: rest) with
      | some (m, r) => (m :: (findSub r).1, (findSub r).2)
      | none => ((findSub rest).1, c :: (findSub rest).2) := by
  show findSubAux (rest.length + 1) (c :: rest) = _
  simp only [findSubAux]
  cases htry : tryUrl (c :: rest) with
  | none =>
    simp only [findSub]
  | some p =>
    obtain ⟨m, r⟩ := p
    have hlt : r.length < (c :: rest).length := tryUrl_length htry
    have h1 : r.length ≤ rest.length := by simp at hlt; omega
    simp only [findSub]
    rw [findSubAux_congr rest.length r.length r h1 (Nat.le_refl _)]

theorem drop_append_le {α : Type} :
    ∀ (n : Nat) (xs ys : List α), n ≤ xs.length → (xs ++ ys).drop n = xs.drop n ++ ys := by
  intro n
  induction n with
  | zero => intro xs ys _; simp
  | succ n ih =>
    intro xs ys h
    cases xs with
    | nil => simp at h
    | cons a l =>
      simp only [List.cons_append, List.drop_succ_cons]
      exact ih l ys (by simp at h; omega)

theorem isPrefixOf_true_length {p s : List Char} (h : p.isPrefixOf s = true) :
    p.length ≤ s.length := by
  induction p generalizing s with
  | nil => simp
  | cons a p ih =>
    cases s with
    | nil => simp at h
    | cons b t =>
      rw [List.isPrefixOf_cons₂] at h
      simp only [Bool.and_eq_true] at h
      have := ih h.2
      simp
      omega

/-- A whitespace character cannot start a URL match. -/
theorem tryUrl_space {c : Char} {t : List Char} (hc : isSpace c = true) :
    tryUrl (c :: t) = none := by
  have hne : ('h' == c) = false := by
    rw [beq_eq_false_iff_ne]
    intro h
    rw [← h] at hc
    exact absurd hc (by decide)
  have h8 : httpsPat.isPrefixOf (c :: t) = false := by
    rw [show httpsPat = 'h' :: ['t', 't', 'p', 's', ':', '/', '/'] from rfl,
      List.isPrefixOf_cons₂, hne, Bool.false_and]
  have h7 : httpPat.isPrefixOf (c :: t) = false := by
    rw [show httpPat = 'h' :: ['t', 't', 'p', ':', '/', '/'] from rfl,
      List.isPrefixOf_cons₂, hne, Bool.false_and]
  unfold tryUrl
  rw [h8, h7]
  simp

/-- Scanning an all-whitespace string finds nothing and removes nothing. -/
theorem findSub_all_space :
    ∀ {ws : List Char}, (∀ c ∈ ws, isSpace c = true) → findSub ws = ([], ws) := by
  intro ws
  induction ws with
  | nil => intro _; exact findSub_nil
  | cons c rest ih =>
    intro h
    rw [findSub_cons, tryUrl_space (h c (by simp))]
    rw [ih (fun x hx => h x (by simp [hx]))]

theorem isPrefixOf_append_space {p : List Char} (hp : ∀ c ∈ p, isSpace c = false) :
    ∀ (s ws : List Char), (∀ c ∈ ws, isSpace c = true) →
      p.isPrefixOf (s ++ ws) = p.isPrefixOf s := by
  induction p with
  | nil => intro s ws _; simp
  | cons a q ih =>
    intro s ws hws
    cases s with
    | nil =>
      simp only [List.nil_append, List.isPrefixOf_cons_nil]
      cases ws with
      | nil => rfl
      | cons w ws' =>
        rw [List.isPrefixOf_cons₂]
        have haw : (a == w) = false := by
          rw [beq_eq_false_iff_ne]
          intro h
          have h1 := hp a (by simp)
          have h2 := hws w (by simp)
          rw [h] at h1
          rw [h1] at h2
          exact Bool.false_ne_true h2
        rw [haw, Bool.false_and]
    | cons b t =>
      rw [List.cons_append, List.isPrefixOf_cons₂, List.isPrefixOf_cons₂]
      rw [ih (fun x hx => hp x (by simp [hx])) t ws hws]

theorem takeWhile_nonspace_append :
    ∀ (xs ws : List Char), (∀ c ∈ ws, isSpace c = true) →
      (xs ++ ws).takeWhile (fun c => !isSpace c) = xs.takeWhile (fun c => !isSpace c) := by
  intro xs
  induction xs with
  | nil =>
    intro ws hws
    cases ws with
    | nil => rfl
    | cons w ws' =>
      simp only [List.nil_append, List.takeWhile_cons, List.takeWhile_nil]
      rw [hws w (by simp)]
      rfl
  | cons a xs' ih =>
    intro ws hws
    simp only [List.cons_append, List.takeWhile_cons]
    cases ha : !isSpace a with
    | false => rfl
    | true => rw [ih ws hws]

/-- Appending trailing whitespace leaves every URL match unchanged and only
extends the rest of the input. -/
theorem tryUrl_append {ws : List Char} (hws : ∀ c ∈ ws, isSpace c = true) (s : List Char) :
    tryUrl (s ++ ws) = (tryUrl s).map (fun p => (p.1, p.2 ++ ws)) := by
  have hp8 : ∀ c ∈ httpsPat, isSpace c = false := by decide
  have hp7 : ∀ c ∈ httpPat, isSpace c = false := by decide
  unfold tryUrl
  rw [isPrefixOf_append_space hp8 s ws hws, isPrefixOf_append_space hp7 s ws hws]
  by_cases h8 : httpsPat.isPrefixOf s = true
  · rw [h8]
    simp only [if_true]
    have hlen : 8 ≤ s.length := isPrefixOf_true_length h8
    have hdrop : (s ++ ws).drop 8 = s.drop 8 ++ ws := drop_append_le 8 s ws hlen
    rw [hdrop, takeWhile_nonspace_append (s.drop 8) ws hws]
    by_cases he : ((s.drop 8).takeWhile (fun c => !isSpace c)).isEmpty = true
    · simp [he]
    · rw [Bool.not_eq_true] at he
      have hble : ((s.drop 8).takeWhile (fun c => !isSpace c)).length ≤ (s.drop 8).length :=
        (List.takeWhile_sublist _).length_le
      simp [he, drop_append_le _ (s.drop 8) ws hble]
  · rw [Bool.not_eq_true] at h8
    rw [h8]
    simp only [if_false]
    by_cases h7 : httpPat.isPrefixOf s = true
    · rw [h7]
      simp only [if_true]
      have hlen : 7 ≤ s.length := isPrefixOf_true_length h7
      have hdrop : (s ++ ws).drop 7 = s.drop 7 ++ ws := drop_append_le 7 s ws hlen
      rw [hdrop, takeWhile_nonspace_append (s.drop 7) ws hws]
      by_cases he : ((s.drop 7).takeWhile (fun c => !isSpace c)).isEmpty = true
      · simp [he]
      · rw [Bool.not_eq_true] at he
        have hble : ((s.drop 7).takeWhile (fun c => !isSpace c)).length ≤ (s.drop 7).length :=
          (List.takeWhile_sublist _).length_le
        simp [he, drop_append_le _ (s.drop 7) ws hble]
    · rw [Bool.not_eq_true] at h7
      rw [h7]
      simp

/-- Trailing whitespace does not change the list of URL matches. -/
theorem findSub_fst_append :
    ∀ (n : Nat) (s ws : List Char), s.length ≤ n → (∀ c ∈ ws, isSpace c = true) →
      (findSub (s ++ ws)).1 = (findSub s).1 := by
  intro n
  induction n with
  | zero =>
    intro s ws hl hws
    have hs : s = [] := by
      cases s with
      | nil => rfl
      | cons a l => simp at hl
    subst hs
    rw [List.nil_append, findSub_all_space hws, findSub_nil]
  | succ n ih =>
    intro s ws hl hws
    cases s with
    | nil => rw [List.nil_append, findSub_all_space hws, findSub_nil]
    | cons c rest =>
      rw [List.cons_append, findSub_cons, findSub_cons]
      rw [show c :: (rest ++ ws) = (c :: rest) ++ ws from rfl, tryUrl_append hws (c :: rest)]
      cases htry : tryUrl (c :: rest) with
      | none =>
        simp only [Option.map_none']
        exact ih rest ws (by simp at hl; omega) hws
      | some p =>
        obtain ⟨m, r⟩ := p
        simp only [Option.map_some']
        have hlt : r.length < (c :: rest).length := tryUrl_length htry
        rw [ih r ws (by simp at hlt hl; omega) hws]

/-- Leading whitespace does not change the list of URL matches. -/
theorem findSub_fst_prepend :
    ∀ (ws s : List Char), (∀ c ∈ ws, isSpace c = true) →
      (findSub (ws ++ s)).1 = (findSub s).1 := by
  intro ws
  induction ws with
  | nil => intro s _; rw [List.nil_append]
  | cons w ws' ih =>
    intro s hws
    rw [List.cons_append, findSub_cons, tryUrl_space (hws w (by simp))]
    exact ih s (fun x hx => hws x (by simp [hx]))

/-- Any message splits as leading whitespace, its `strip()`, trailing whitespace. -/
theorem pyStrip_decomp (m : List Char) :
    ∃ ws1 ws2, (∀ c ∈ ws1, isSpace c = true) ∧ (∀ c ∈ ws2, isSpace c = true) ∧
      m = ws1 ++ (pyStrip m ++ ws2) := by
  refine ⟨m.takeWhile isSpace, ((m.dropWhile isSpace).reverse.takeWhile isSpace).reverse,
    ?_, ?_, ?_⟩
  · intro c hc
    exact List.mem_takeWhile_imp hc
  · intro c hc
    rw [List.mem_reverse] at hc
    exact List.mem_takeWhile_imp hc
  · have h1 : m = m.takeWhile isSpace ++ m.dropWhile isSpace :=
      (List.takeWhile_append_dropWhile isSpace m).symm
    have h2 : (m.dropWhile isSpace).reverse =
        (m.dropWhile isSpace).reverse.takeWhile isSpace ++
          (m.dropWhile isSpace).reverse.dropWhile isSpace :=
      (List.takeWhile_append_dropWhile isSpace _).symm
    have h3 : m.dropWhile isSpace =
        pyStrip m ++ ((m.dropWhile isSpace).reverse.takeWhile isSpace).reverse := by
      have := congrArg List.reverse h2
      rw [List.reverse_reverse, List.reverse_append] at this
      exact this
    calc m = m.takeWhile isSpace ++ m.dropWhile isSpace := h1
    _ = m.takeWhile isSpace ++
        (pyStrip m ++ ((m.dropWhile isSpace).reverse.takeWhile isSpace).reverse) := by
        rw [← h3]

/-- `re.findall` gives the same matches on the stripped and unstripped message. -/
theorem findallUrls_pyStrip (m : List Char) :
    findallUrls (pyStrip m) = findallUrls m := by
  obtain ⟨ws1, ws2, hws1, hws2, hdec⟩ := pyStrip_decomp m
  unfold findallUrls
  conv_rhs => rw [hdec]
  rw [findSub_fst_prepend ws1 (pyStrip m ++ ws2) hws1]
  rw [findSub_fst_append (pyStrip m).length (pyStrip m) ws2 (Nat.le_refl _) hws2]

theorem tryUrl_some_ne_nil {s m r : List Char} (h : tryUrl s = some (m, r)) : m ≠ [] := by
  unfold tryUrl at h
  by_cases h8 : httpsPat.isPrefixOf s = true
  · simp only [h8, if_true] at h
    by_cases he : ((s.drop 8).takeWhile (fun c => !isSpace c)).isEmpty = true
    · simp [he] at h
    · rw [Bool.not_eq_true] at he
      simp only [he, Bool.false_eq_true, if_false, Option.some.injEq, Prod.mk.injEq] at h
      rw [← h.1]
      simp [httpsPat]
  · rw [Bool.not_eq_true] at h8
    simp only [h8, Bool.false_eq_true, if_false] at h
    by_cases h7 : httpPat.isPrefixOf s = true
    · simp only [h7, if_true] at h
      by_cases he : ((s.drop 7).takeWhile (fun c => !isSpace c)).isEmpty = true
      · simp [he] at h
      · rw [Bool.not_eq_true] at he
        simp only [he, Bool.false_eq_true, if_false, Option.some.injEq, Prod.mk.injEq] at h
        rw [← h.1]
        simp [httpPat]
    · rw [Bool.not_eq_true] at h7
      simp [h7] at h

/-- Every URL match produced by the scanner is a non-empty string. -/
theorem findallUrls_ne_nil :
    ∀ (n : Nat) (s : List Char), s.length ≤ n → ∀ u ∈ findallUrls s, u ≠ [] := by
  intro n
  induction n with
  | zero =>
    intro s hl u hu
    have hs : s = [] := by
      cases s with
      | nil => rfl
      | cons a l => simp at hl
    subst hs
    simp [findallUrls, findSub_nil] at hu
  | succ n ih =>
    intro s hl u hu
    cases s with
    | nil => simp [findallUrls, findSub_nil] at hu
    | cons c rest =>
      unfold findallUrls at hu
      rw [findSub_cons] at hu
      cases htry : tryUrl (c :: rest) with
      | none =>
        rw [htry] at hu
        exact ih rest (by simp at hl; omega) u hu
      | some p =>
        obtain ⟨m, r⟩ := p
        rw [htry] at hu
        simp only [List.mem_cons] at hu
        cases hu with
        | inl h => rw [h]; exact tryUrl_some_ne_nil htry
        | inr h =>
          have hlt : r.length < (c :: rest).length := tryUrl_length htry
          exact ih r (by simp at hlt hl; omega) u h

/-!
## Parsed JSON values (Python objects)

`json.loads` output and the values flowing through `handle_sms` / `save_item`
are modelled by `PyVal`: JSON `null` becomes Python `None` (`vnone`), strings
become `str`, numbers `int`, booleans `bool`, arrays `list`, objects `dict`.
-/

inductive PyVal : Type where
  | vnone : PyVal
  | vstr : List Char → PyVal
  | vint : Int → PyVal
  | vbool : Bool → PyVal
  | vlist : List PyVal → PyVal
  | vdict : List (List Char × PyVal) → PyVal

/-- First-match association lookup, as in a Python dict built from JSON
(classifier outputs have distinct keys, so the direction of the scan is moot). -/
def dlookup : List (List Char × PyVal) → List Char → Option PyVal
  | [], _ => none
  | (k, v) :: rest, key => if k = key then some v else dlookup rest key

/-- Python `d.get(k)`: the value if the key is present, `None` otherwise. -/
def dget (d : List (List Char × PyVal)) (k : List Char) : PyVal :=
  match dlookup d k with
  | some v => v
  | none => PyVal.vnone

/-- Python `d.get(k, default)`: the default fires only when the key is absent. -/
def dgetD (d : List (List Char × PyVal)) (k : List Char) (dflt : PyVal) : PyVal :=
  match dlookup d k with
  | some v => v
  | none => dflt

/-- Python truthiness of a value. -/
def truthy : PyVal → Bool
  | PyVal.vnone => false
  | PyVal.vstr s => !s.isEmpty
  | PyVal.vint n => decide ¬(n = 0)
  | PyVal.vbool b => b
  | PyVal.vlist xs => !xs.isEmpty
  | PyVal.vdict f => !f.isEmpty

/-- Python `v == "lit"` for a string literal: true only for an equal `str`. -/
def pyEqStr (v : PyVal) (lit : List Char) : Bool :=
  match v with
  | PyVal.vstr s => decide (s = lit)
  | _ => false

/--
Python `str(v)` as used by the f-string confirmations.  Only scalars can
reach the reply formatter: a list or dict among the extracted fields makes the
preceding SQLite insert raise, so the confirmation is never built.  Their
rendering is therefore abbreviated here.
-/
def pyStr : PyVal → List Char
  | PyVal.vnone => "None".data
  | PyVal.vstr s => s
  | PyVal.vint n => (toString n).data
  | PyVal.vbool true => "True".data
  | PyVal.vbool false => "False".data
  | PyVal.vlist _ => "[]".data
  | PyVal.vdict _ => "{}".data

/-- Python `v[:n]`: defined for `str` and `list`, a `TypeError` otherwise. -/
def pySlice : PyVal → Nat → Except Unit PyVal
  | PyVal.vstr s, n => Except.ok (PyVal.vstr (s.take n))
  | PyVal.vlist xs, n => Except.ok (PyVal.vlist (xs.take n))
  | _, _ => Except.error ()

/-- A SQLite storage value of the columns used here. -/
inductive DbVal : Type where
  | dbNull : DbVal
  | dbText : List Char → DbVal
  | dbInt : Int → DbVal
deriving DecidableEq

/-- Binding a Python value as a SQLite parameter: scalars bind, containers
raise `InterfaceError`. -/
def toDb : PyVal → Except Unit DbVal
  | PyVal.vnone => Except.ok DbVal.dbNull
  | PyVal.vstr s => Except.ok (DbVal.dbText s)
  | PyVal.vint n => Except.ok (DbVal.dbInt n)
  | PyVal.vbool b => Except.ok (DbVal.dbInt (if b then 1 else 0))
  | PyVal.vlist _ => Except.error ()
  | PyVal.vdict _ => Except.error ()

/-- The stored value of a scalar, used to state what a successful bind keeps. -/
def toDbV : PyVal → DbVal
  | PyVal.vnone => DbVal.dbNull
  | PyVal.vstr s => DbVal.dbText s
  | PyVal.vint n => DbVal.dbInt n
  | PyVal.vbool b => DbVal.dbInt (if b then 1 else 0)
  | PyVal.vlist _ => DbVal.dbNull
  | PyVal.vdict _ => DbVal.dbNull

def isScalar : PyVal → Bool
  | PyVal.vlist _ => false
  | PyVal.vdict _ => false
  | _ => true

theorem toDb_scalar {v : PyVal} (h : isScalar v = true) : toDb v = Except.ok (toDbV v) := by
  cases v <;> simp_all [isScalar, toDb, toDbV]

/-!
## Pending-URL store (table `pending_urls`)

Timestamps are modelled as the TEXT values the program actually compares.
`save_pending_url` omits the `created_at` column, so SQLite fills in the
`CURRENT_TIMESTAMP` default: the database's UTC wall clock as
`YYYY-MM-DD HH:MM:SS`.  `get_pending_url` binds
`(datetime.now() - timedelta(minutes=2)).isoformat()`: the process's local
wall clock as `YYYY-MM-DDTHH:MM:SS[.ffffff]`.  The column's TIMESTAMP
(NUMERIC) affinity converts neither string to a number, so SQLite's
`created_at > ?` and `ORDER BY created_at DESC` fall back to the BINARY
collation — a bytewise text comparison, modelled by `lexLt` on the ASCII
characters.  The two clock readings of a request are passed in separately
(`nowUtc` feeds the database stamp, `nowLocal` feeds `datetime.now()`), with
no relation assumed between them.
-/

/-- A wall-clock reading, with `datetime`'s fields in `datetime`'s valid
ranges (four-digit year, 1-based month and day, microseconds below 10^6). -/
structure PyDateTime : Type where
  year : Nat
  month : Nat
  day : Nat
  hour : Nat
  minute : Nat
  second : Nat
  microsecond : Nat
deriving DecidableEq

def digitChar (n : Nat) : Char := Char.ofNat (48 + n % 10)

/-- Two-digit zero-padded decimal, as strftime and isoformat render fields. -/
def pad2 (n : Nat) : List Char := [digitChar (n / 10), digitChar n]

/-- Four-digit zero-padded year. -/
def pad4 (n : Nat) : List Char :=
  [digitChar (n / 1000), digitChar (n / 100), digitChar (n / 10), digitChar n]

/-- Six-digit zero-padded microseconds. -/
def pad6 (n : Nat) : List Char :=
  [digitChar (n / 100000), digitChar (n / 10000), digitChar (n / 1000),
    digitChar (n / 100), digitChar (n / 10), digitChar n]

/-- SQLite `CURRENT_TIMESTAMP` text: `YYYY-MM-DD HH:MM:SS` (space separator,
no fractional seconds). -/
def fmtSql (dt : PyDateTime) : List Char :=
  pad4 dt.year ++ ('-' :: pad2 dt.month) ++ ('-' :: pad2 dt.day) ++
    (' ' :: pad2 dt.hour) ++ (':' :: pad2 dt.minute) ++ (':' :: pad2 dt.second)

/-- Python `datetime.isoformat()`: `YYYY-MM-DDTHH:MM:SS`, with `.ffffff`
appended exactly when the microsecond field is non-zero. -/
def fmtIso (dt : PyDateTime) : List Char :=
  pad4 dt.year ++ ('-' :: pad2 dt.month) ++ ('-' :: pad2 dt.day) ++
    ('T' :: pad2 dt.hour) ++ (':' :: pad2 dt.minute) ++ (':' :: pad2 dt.second) ++
    (if dt.microsecond = 0 then [] else '.' :: pad6 dt.microsecond)

/-- Days of a month in the proleptic Gregorian calendar, as `datetime` uses. -/
def daysInMonth (year month : Nat) : Nat :=
  if month = 2 then
    if (year % 4 = 0 ∧ ¬(year % 100 = 0)) ∨ year % 400 = 0 then 29 else 28
  else if month = 4 ∨ month = 6 ∨ month = 9 ∨ month = 11 then 30 else 31

/-- `now - timedelta(minutes=2)`: exact calendar arithmetic, borrowing
through the hour, day, month and year boundaries as needed. -/
def dtSubTwoMinutes (dt : PyDateTime) : PyDateTime :=
  if 2 ≤ dt.minute then
    ⟨dt.year, dt.month, dt.day, dt.hour, dt.minute - 2, dt.second, dt.microsecond⟩
  else if 1 ≤ dt.hour then
    ⟨dt.year, dt.month, dt.day, dt.hour - 1, dt.minute + 58, dt.second, dt.microsecond⟩
  else if 2 ≤ dt.day then
    ⟨dt.year, dt.month, dt.day - 1, 23, dt.minute + 58, dt.second, dt.microsecond⟩
  else if 2 ≤ dt.month then
    ⟨dt.year, dt.month - 1, daysInMonth dt.year (dt.month - 1), 23, dt.minute + 58,
      dt.second, dt.microsecond⟩
  else
    ⟨dt.year - 1, 12, 31, 23, dt.minute + 58, dt.second, dt.microsecond⟩

/-- SQLite's BINARY collation on two ASCII texts: bytewise `a < b`, with a
proper prefix ordering below its extensions. -/
def lexLt : List Char → List Char → Bool
  | [], [] => false
  | [], _ :: _ => true
  | _ :: _, [] => false
  | a :: as, b :: bs =>
    if a.toNat < b.toNat then true
    else if b.toNat < a.toNat then false
    else lexLt as bs

/-- A row of the `pending_urls` table; `createdAt` is the stored TEXT stamp. -/
structure Entry : Type where
  id : Nat
  url : List Char
  sender : List Char
  createdAt : List Char
deriving DecidableEq

/-- The `pending_urls` table plus its autoincrement counter. -/
structure PendingState : Type where
  entries : List Entry
  nextId : Nat
deriving DecidableEq

/-- `ORDER BY created_at DESC LIMIT 1` over a result set (BINARY collation). -/
def pickLatest : List Entry → Option Entry
  | [] => none
  | e :: rest =>
    match pickLatest rest with
    | none => some e
    | some a => if lexLt e.createdAt a.createdAt then some a else some e

/--
`get_pending_url` from src/main.py: bind the isoformat text of
`datetime.now() - timedelta(minutes=2)` and select this sender's row with the
bytewise-greatest `created_at` satisfying `created_at > ?`; on a hit, delete
that row (by id) and return its URL; otherwise return nothing and leave the
table unchanged.  Because the stored stamp uses a space separator (UTC clock)
while the bound threshold uses a `T` separator (local clock), the condition
is false whenever the two ten-character date prefixes agree.
-/
def get_pending_url (sender : List Char) (ps : PendingState) (nowLocal : PyDateTime) :
    Option (List Char) × PendingState :=
  let live := ps.entries.filter
    (fun e => decide (e.sender = sender) &&
      lexLt (fmtIso (dtSubTwoMinutes nowLocal)) e.createdAt)
  match pickLatest live with
  | none => (none, ps)
  | some row =>
    (some row.url, ⟨ps.entries.filter (fun e => decide ¬(e.id = row.id)), ps.nextId⟩)

/--
`save_pending_url` from src/main.py: delete every row of this sender
(live or expired), then insert a fresh row whose `created_at` takes the
column default `CURRENT_TIMESTAMP` — the database's UTC clock as
`YYYY-MM-DD HH:MM:SS` text.
-/
def save_pending_url (url : List Char) (sender : List Char) (ps : PendingState)
    (nowUtc : PyDateTime) : PendingState :=
  ⟨ps.entries.filter (fun e => decide ¬(e.sender = sender)) ++
    [⟨ps.nextId, url, sender, fmtSql nowUtc⟩], ps.nextId + 1⟩

/-- No two rows of the table belong to the same sender. -/
def distinctSenders : List Entry → Bool
  | [] => true
  | e :: rest => rest.all (fun a => decide ¬(a.sender = e.sender)) && distinctSenders rest

/-- The per-sender uniqueness invariant of the pending store. -/
@[reducible] def AtMostOne (ps : PendingState) : Prop :=
  distinctSenders ps.entries = true

/-!
## Items table and `save_item`
-/

/-- A row of the `items` table (id and created_at omitted: the claims do not
mention them and they are assigned by the database). -/
structure Item : Type where
  category : DbVal
  title : DbVal
  platform : DbVal
  ingredients : DbVal
  location : DbVal
  event_date : DbVal
  caption : DbVal
  original_url : Option (List Char)
  original_message : List Char
  saved_by : List Char
deriving DecidableEq

/-- `url_override or (urls[0] if urls else None)`: Python `or` falls through on
a falsy (empty) override. -/
def pyOrUrl (urlOverride : Option (List Char)) (msg : List Char) : Option (List Char) :=
  match urlOverride with
  | some u => if u.isEmpty then (findallUrls msg).head? else some u
  | none => (findallUrls msg).head?

/-- The row built by `save_item`'s INSERT; fails if any bound value is a container. -/
def buildItem (d : List (List Char × PyVal)) (origMsg sender : List Char)
    (urlOverride : Option (List Char)) : Except Unit Item :=
  match toDb (dget d ("category".data)), toDb (dget d ("title".data)),
      toDb (dget d ("platform".data)), toDb (dget d ("ingredients".data)),
      toDb (dget d ("location".data)), toDb (dget d ("event_date".data)),
      toDb (dget d ("caption".data)) with
  | Except.ok cat, Except.ok ti, Except.ok pl, Except.ok ing, Except.ok loc,
      Except.ok ed, Except.ok cap =>
    Except.ok ⟨cat, ti, pl, ing, loc, ed, cap, pyOrUrl urlOverride origMsg, origMsg, sender⟩
  | _, _, _, _, _, _, _ => Except.error ()

/-- All seven extracted fields are SQLite-bindable scalars. -/
def scalarFields (d : List (List Char × PyVal)) : Bool :=
  isScalar (dget d ("category".data)) && isScalar (dget d ("title".data)) &&
    isScalar (dget d ("platform".data)) && isScalar (dget d ("ingredients".data)) &&
    isScalar (dget d ("location".data)) && isScalar (dget d ("event_date".data)) &&
    isScalar (dget d ("caption".data))

/-- `data.get('title') or data.get('caption', '')[:50]` (short-circuiting `or`;
slicing a non-sliceable caption raises `TypeError`). -/
def titleOf (d : List (List Char × PyVal)) : Except Unit PyVal :=
  if truthy (dget d ("title".data)) then Except.ok (dget d ("title".data))
  else pySlice (dgetD d ("caption".data) (PyVal.vstr [])) 50

/--
`save_item` from src/main.py.  Returns the items table after the call together
with the confirmation text, or an error if an exception escaped: an unbindable
field aborts before the INSERT; a `TypeError` while building the title happens
after the INSERT has been committed.
-/
def save_item (d : List (List Char × PyVal)) (origMsg sender : List Char)
    (urlOverride : Option (List Char)) (items : List Item) :
    List Item × Except Unit (List Char) :=
  match buildItem d origMsg sender urlOverride with
  | Except.error _ => (items, Except.error ())
  | Except.ok item =>
    let items2 := items ++ [item]
    match titleOf d with
    | Except.error _ => (items2, Except.error ())
    | Except.ok title =>
      let category := dget d ("category".data)
      if pyEqStr category ("content".data) then
        (items2, Except.ok (("✓ Saved: ".data) ++ pyStr title ++ (" (".data) ++
          pyStr (dgetD d ("platform".data) (PyVal.vstr ("saved".data))) ++ (")".data)))
      else if pyEqStr category ("food".data) then
        (items2, Except.ok (("✓ Saved recipe: ".data) ++ pyStr title))
      else if pyEqStr category ("events".data) then
        (items2, Except.ok (pyStrip (("✓ Saved event: ".data) ++ pyStr title ++
          (" - ".data) ++ pyStr (dgetD d ("location".data) (PyVal.vstr [])) ++
          (" ".data) ++ pyStr (dgetD d ("event_date".data) (PyVal.vstr [])))))
      else
        (items2, Except.ok (("✓ Saved: ".data) ++ pyStr title ++ ("...".data)))

/-!
## Correlator: `handle_sms`
-/

/-- What the classification call produced: a transport/API exception, a
non-JSON text (`json.JSONDecodeError`), or a parsed JSON value. -/
inductive ClassifierResp : Type where
  | apiError : ClassifierResp
  | badJson : ClassifierResp
  | json : PyVal → ClassifierResp

/-- The observable outcome of one webhook request: the two tables afterwards,
the reply text, the classifier input (if the gateway was invoked) and the
question handed to `handle_query` (if the query path ran). -/
structure SmsResult : Type where
  pending : PendingState
  items : List Item
  reply : List Char
  classifierInput : Option (List Char)
  queryQuestion : Option PyVal

def genericErr : List Char := "Sorry, something went wrong. Try again?".data

def emptyRepoMsg : List Char :=
  "You haven't saved anything yet! Text me links to save them.".data

/-- `handle_query` from src/main.py: fixed reply on an empty repository,
otherwise the answer gateway's text for (question, all items). -/
def handle_query (q : PyVal) (items : List Item)
    (answerer : PyVal → List Item → List Char) : List Char :=
  if items.isEmpty then emptyRepoMsg else answerer q items

/-- The classifier fallback dict for non-JSON output:
`{"type": "save", "category": "facts", "caption": message_body}`. -/
def factsFallback (combined : List Char) : List (List Char × PyVal) :=
  [(("type".data), PyVal.vstr ("save".data)), (("category".data), PyVal.vstr ("facts".data)),
    (("caption".data), PyVal.vstr combined)]

/-- The branch of `handle_sms` after classification: `result.get('type')`
raises `AttributeError` on a non-dict (caught at top level as the generic
reply); a `'query'` type runs `handle_query` with
`result.get('question', message_body)`; anything else is saved. -/
def dispatch (result : PyVal) (ps2 : PendingState) (items : List Item)
    (body combined sender : List Char) (pending : Option (List Char))
    (answerer : PyVal → List Item → List Char) : SmsResult :=
  match result with
  | PyVal.vdict d =>
    if pyEqStr (dget d ("type".data)) ("query".data) then
      let q := dgetD d ("question".data) (PyVal.vstr body)
      ⟨ps2, items, handle_query q items answerer, some combined, some q⟩
    else
      match save_item d combined sender pending items with
      | (items2, Except.ok conf) => ⟨ps2, items2, conf, some combined, none⟩
      | (items2, Except.error _) => ⟨ps2, items2, genericErr, some combined, none⟩
  | _ => ⟨ps2, items, genericErr, some combined, none⟩

/--
`handle_sms` from src/main.py, for one inbound message.  A link-only message
parks the URL (stamped by the database's UTC clock `nowUtc`) and
acknowledges; otherwise the pending URL (if live per the text comparison
against the local clock `nowLocal`) is consumed and appended to the body, the
classifier is called on the combined text, and the result is dispatched.
Uncaught exceptions become the generic failure reply, keeping whatever table
changes already happened.
-/
def handle_sms (ps : PendingState) (items : List Item) (body sender : List Char)
    (nowUtc nowLocal : PyDateTime) (oracle : List Char → ClassifierResp)
    (answerer : PyVal → List Item → List Char) : SmsResult :=
  match is_url_only body with
  | (true, url) =>
    ⟨save_pending_url (url.getD []) sender ps nowUtc, items, ("✓".data), none, none⟩
  | (false, _) =>
    let pr := get_pending_url sender ps nowLocal
    let combined :=
      match pr.1 with
      | some p => body ++ (" ".data) ++ p
      | none => body
    match oracle combined with
    | ClassifierResp.apiError => ⟨pr.2, items, genericErr, some combined, none⟩
    | ClassifierResp.badJson =>
      dispatch (PyVal.vdict (factsFallback combined)) pr.2 items body combined sender
        pr.1 answerer
    | ClassifierResp.json v => dispatch v pr.2 items body combined sender pr.1 answerer

/-!
## Helper lemmas about the pending store and the correlator
-/

/-- `park` followed by `takeIfLive` for the same sender: a hit exactly when
the bound isoformat threshold compares bytewise below the stored SQL text
stamp; on a hit the fresh row is deleted, on a miss the table is left as
parked. -/
theorem park_then_take (ps : PendingState) (s L : List Char) (t0 t : PyDateTime) :
    get_pending_url s (save_pending_url L s ps t0) t =
      if lexLt (fmtIso (dtSubTwoMinutes t)) (fmtSql t0) = true then
        (some L, ⟨(ps.entries.filter (fun e => decide ¬(e.sender = s))).filter
          (fun e => decide ¬(e.id = ps.nextId)), ps.nextId + 1⟩)
      else (none, save_pending_url L s ps t0) := by
  have hfilter : (save_pending_url L s ps t0).entries.filter
      (fun e => decide (e.sender = s) &&
        lexLt (fmtIso (dtSubTwoMinutes t)) e.createdAt) =
      if lexLt (fmtIso (dtSubTwoMinutes t)) (fmtSql t0) = true
      then [⟨ps.nextId, L, s, fmtSql t0⟩] else [] := by
    unfold save_pending_url
    rw [List.filter_append]
    have h1 : (ps.entries.filter fun e => decide ¬(e.sender = s)).filter
        (fun e => decide (e.sender = s) &&
          lexLt (fmtIso (dtSubTwoMinutes t)) e.createdAt) = [] := by
      rw [List.filter_eq_nil_iff]
      intro a ha
      rw [List.mem_filter] at ha
      have hns : ¬(a.sender = s) := by simpa using ha.2
      simp [hns]
    rw [h1, List.nil_append]
    by_cases hc : lexLt (fmtIso (dtSubTwoMinutes t)) (fmtSql t0) = true
    · simp [hc]
    · simp [hc]
  unfold get_pending_url
  rw [hfilter]
  by_cases hc : lexLt (fmtIso (dtSubTwoMinutes t)) (fmtSql t0) = true
  · rw [if_pos hc, if_pos hc]
    simp only [pickLatest]
    unfold save_pending_url
    rw [List.filter_append]
    simp
  · rw [if_neg hc, if_neg hc]
    simp only [pickLatest]

/-- A link-only message parks the link, acknowledges, and touches nothing else. -/
theorem handle_sms_link {ps : PendingState} {items : List Item}
    {body s : List Char} {nowUtc nowLocal : PyDateTime}
    {oracle : List Char → ClassifierResp}
    {answerer : PyVal → List Item → List Char} {L : List Char}
    (h : is_url_only body = (true, some L)) :
    handle_sms ps items body s nowUtc nowLocal oracle answerer =
      ⟨save_pending_url L s ps nowUtc, items, ("✓".data), none, none⟩ := by
  unfold handle_sms
  rw [h]
  exact rfl

/-- A link-only detection always carries a non-empty link. -/
theorem is_url_only_link_ne_nil {m L : List Char} (h : is_url_only m = (true, some L)) :
    L ≠ [] := by
  unfold is_url_only at h
  by_cases hc : findallUrls (pyStrip m) ≠ [] ∧ (pyStrip (removeUrls m)).length < 5
  · rw [if_pos hc] at h
    simp only [Prod.mk.injEq] at h
    have hmem : L ∈ findallUrls (pyStrip m) := by
      cases hl : findallUrls (pyStrip m) with
      | nil => rw [hl] at h; simp at h
      | cons a l =>
        rw [hl] at h
        have : a = L := by simpa using h.2
        rw [← this]
        simp
    exact findallUrls_ne_nil (pyStrip m).length (pyStrip m) (Nat.le_refl _) L hmem
  · rw [if_neg hc] at h
    simp at h

/-- Reduction of `handle_sms` for a non-link-only message once the pending
lookup's result is known. -/
theorem handle_sms_text_pending {ps : PendingState} {items : List Item}
    {body s : List Char} {nowUtc nowLocal : PyDateTime}
    {oracle : List Char → ClassifierResp}
    {answerer : PyVal → List Item → List Char} {L : List Char} {ps2 : PendingState}
    (h : (is_url_only body).1 = false)
    (hp : get_pending_url s ps nowLocal = (some L, ps2)) :
    handle_sms ps items body s nowUtc nowLocal oracle answerer =
      (match oracle (body ++ (" ".data) ++ L) with
        | ClassifierResp.apiError =>
          ⟨ps2, items, genericErr, some (body ++ (" ".data) ++ L), none⟩
        | ClassifierResp.badJson =>
          dispatch (PyVal.vdict (factsFallback (body ++ (" ".data) ++ L))) ps2 items
            body (body ++ (" ".data) ++ L) s (some L) answerer
        | ClassifierResp.json v =>
          dispatch v ps2 items body (body ++ (" ".data) ++ L) s (some L) answerer) := by
  have hpair : is_url_only body = (false, (is_url_only body).2) := by
    rw [← h]
  unfold handle_sms
  rw [hpair]
  dsimp only
  rw [hp]

theorem handle_sms_text_none {ps : PendingState} {items : List Item}
    {body s : List Char} {nowUtc nowLocal : PyDateTime}
    {oracle : List Char → ClassifierResp}
    {answerer : PyVal → List Item → List Char} {ps2 : PendingState}
    (h : (is_url_only body).1 = false)
    (hp : get_pending_url s ps nowLocal = (none, ps2)) :
    handle_sms ps items body s nowUtc nowLocal oracle answerer =
      (match oracle body with
        | ClassifierResp.apiError => ⟨ps2, items, genericErr, some body, none⟩
        | ClassifierResp.badJson =>
          dispatch (PyVal.vdict (factsFallback body)) ps2 items body body s none answerer
        | ClassifierResp.json v => dispatch v ps2 items body body s none answerer) := by
  have hpair : is_url_only body = (false, (is_url_only body).2) := by
    rw [← h]
  unfold handle_sms
  rw [hpair]
  dsimp only
  rw [hp]

/-- A dict of bindable scalars builds exactly this row. -/
theorem buildItem_scalar {d : List (List Char × PyVal)} {origMsg sender : List Char}
    {urlOverride : Option (List Char)} (hs : scalarFields d = true) :
    buildItem d origMsg sender urlOverride = Except.ok
      ⟨toDbV (dget d ("category".data)), toDbV (dget d ("title".data)),
        toDbV (dget d ("platform".data)), toDbV (dget d ("ingredients".data)),
        toDbV (dget d ("location".data)), toDbV (dget d ("event_date".data)),
        toDbV (dget d ("caption".data)), pyOrUrl urlOverride origMsg, origMsg, sender⟩ := by
  unfold scalarFields at hs
  simp only [Bool.and_eq_true] at hs
  obtain ⟨⟨⟨⟨⟨⟨hcat, hti⟩, hpl⟩, hing⟩, hloc⟩, hed⟩, hcap⟩ := hs
  unfold buildItem
  rw [toDb_scalar hcat, toDb_scalar hti, toDb_scalar hpl, toDb_scalar hing,
    toDb_scalar hloc, toDb_scalar hed, toDb_scalar hcap]

/-- Once the row builds, `save_item` appends exactly that row, whatever happens
to the confirmation afterwards. -/
theorem save_item_items {d : List (List Char × PyVal)} {origMsg sender : List Char}
    {urlOverride : Option (List Char)} {items : List Item} {item : Item}
    (hb : buildItem d origMsg sender urlOverride = Except.ok item) :
    (save_item d origMsg sender urlOverride items).1 = items ++ [item] := by
  unfold save_item
  rw [hb]
  cases titleOf d with
  | error e => rfl
  | ok ti =>
    dsimp only
    split_ifs <;> rfl

/-- The save branch of `dispatch` with a successful row build. -/
theorem dispatch_save {d : List (List Char × PyVal)} {ps2 : PendingState}
    {items : List Item} {body combined sender : List Char}
    {pending : Option (List Char)} {answerer : PyVal → List Item → List Char}
    {item : Item}
    (hq : pyEqStr (dget d ("type".data)) ("query".data) = false)
    (hb : buildItem d combined sender pending = Except.ok item) :
    (dispatch (PyVal.vdict d) ps2 items body combined sender pending answerer).items =
      items ++ [item] ∧
    (dispatch (PyVal.vdict d) ps2 items body combined sender pending
      answerer).classifierInput = some combined ∧
    (dispatch (PyVal.vdict d) ps2 items body combined sender pending
      answerer).pending = ps2 := by
  unfold dispatch
  dsimp only
  have hqn : ¬(pyEqStr (dget d ("type".data)) ("query".data) = true) := by
    rw [hq]
    exact Bool.false_ne_true
  rw [if_neg hqn]
  have hitems := @save_item_items d combined sender pending items item hb
  cases hsv : save_item d combined sender pending items with
  | mk items2 conf =>
    rw [hsv] at hitems
    cases conf with
    | ok c => exact ⟨hitems, rfl, rfl⟩
    | error e => exact ⟨hitems, rfl, rfl⟩

/-!
## Claims
-/

/--
C4: `detect(m)` returns `isLinkOnly = true` iff `m` contains at least one
URL-shaped substring and `m` with all URL occurrences removed, then trimmed,
has length at most 4; with no URL it returns `(false, none)`; the returned
link is always the first URL-shaped substring found.  (`is_url_only` is a
plain Lean function, so purity and determinism are inherent.)
-/
theorem C4_detector_spec (m : List Char) :
    ((is_url_only m).1 = true ↔
      findallUrls m ≠ [] ∧ (pyStrip (removeUrls m)).length ≤ 4) ∧
    (findallUrls m = [] → is_url_only m = (false, none)) ∧
    (is_url_only m).2 = (findallUrls m).head? := by
  unfold is_url_only
  rw [findallUrls_pyStrip]
  by_cases h : findallUrls m ≠ [] ∧ (pyStrip (removeUrls m)).length < 5
  · rw [if_pos h]
    refine ⟨?_, ?_, rfl⟩
    · constructor
      · intro _
        exact ⟨h.1, by omega⟩
      · intro _
        rfl
    · intro hnil
      exact absurd hnil h.1
  · rw [if_neg h]
    refine ⟨?_, ?_, rfl⟩
    · constructor
      · intro hfalse
        exact absurd hfalse (by simp)
      · intro hc
        exact absurd ⟨hc.1, by omega⟩ h
    · intro hnil
      rw [hnil]
      rfl

/-- Witness for C4 at concrete inputs. -/
theorem C4_witness :
    findallUrls ("just words here".data) = [] ∧
      is_url_only ("just words here".data) = (false, none) :=
  ⟨by decide, (C4_detector_spec ("just words here".data)).2.1 (by decide)⟩

/--
C2: the claimed 2-minute TTL window does not exist in the program.  `park`
stores SQLite's UTC text `2026-10-12 11:00:00`; `takeIfLive` 30 seconds later
binds the local isoformat threshold `2026-10-12T10:58:30.500000`, and the
bytewise comparison of the two (space 0x20 versus `T` 0x54 at index 10) makes
`created_at > ?` false whenever the date prefixes agree — so the in-window
take returns none (first conjunct).  Conversely, when the UTC date is ahead of
the local date (here a UTC+... offset: stamp `2026-10-13 01:00:00`, local
clock three hours later still on `2026-10-12`), the comparison succeeds on the
date prefix alone and a take far beyond the TTL still returns the link
(second conjunct).  Both directions of the claimed TTL property fail.
-/
theorem C2_timestamp_mismatch :
    (get_pending_url ("alice".data)
      (save_pending_url ("https://netflix.com/title/123".data) ("alice".data) ⟨[], 1⟩
        ⟨2026, 10, 12, 11, 0, 0, 0⟩)
      ⟨2026, 10, 12, 11, 0, 30, 500000⟩).1 = none ∧
    (get_pending_url ("alice".data)
      (save_pending_url ("https://netflix.com/title/123".data) ("alice".data) ⟨[], 1⟩
        ⟨2026, 10, 13, 1, 0, 0, 0⟩)
      ⟨2026, 10, 12, 23, 0, 0, 0⟩).1 =
      some ("https://netflix.com/title/123".data) := by decide

/--
C5: a link-only message parks the extracted link for the sender, replies with
the fixed token, and neither invokes the classifier, nor reads the pending
store, nor changes the items table.
-/
theorem C5_link_only (ps : PendingState) (items : List Item) (body s : List Char)
    (nowUtc nowLocal : PyDateTime) (oracle : List Char → ClassifierResp)
    (answerer : PyVal → List Item → List Char) (L : List Char)
    (h : is_url_only body = (true, some L)) :
    handle_sms ps items body s nowUtc nowLocal oracle answerer =
      ⟨save_pending_url L s ps nowUtc, items, ("✓".data), none, none⟩ :=
  handle_sms_link h

/-- Witness for C5 at a concrete link-only message. -/
theorem C5_witness :
    is_url_only ("https://netflix.com/title/123".data) =
      (true, some ("https://netflix.com/title/123".data)) ∧
    handle_sms ⟨[], 1⟩ [] ("https://netflix.com/title/123".data) ("alice".data)
        ⟨2026, 10, 12, 11, 0, 0, 0⟩ ⟨2026, 10, 12, 11, 0, 0, 0⟩
        (fun _ => ClassifierResp.badJson) (fun _ _ => []) =
      ⟨save_pending_url ("https://netflix.com/title/123".data) ("alice".data) ⟨[], 1⟩
        ⟨2026, 10, 12, 11, 0, 0, 0⟩, [], ("✓".data), none, none⟩ :=
  ⟨by decide,
    C5_link_only ⟨[], 1⟩ [] ("https://netflix.com/title/123".data) ("alice".data)
      ⟨2026, 10, 12, 11, 0, 0, 0⟩ ⟨2026, 10, 12, 11, 0, 0, 0⟩
      (fun _ => ClassifierResp.badJson) (fun _ _ => [])
      ("https://netflix.com/title/123".data) (by decide)⟩

/--
C1: the spec's link-then-caption scenario run on the program as written.
`"https://netflix.com/title/123"` from alice is parked with the stored stamp
`2026-10-12 11:00:00`; `"watch this show"` arrives 30 seconds later, well
inside the claimed TTL.  Because the stored space-separated UTC stamp never
compares above the `T`-separated isoformat threshold while the date prefixes
agree, the pending link is not found: the classifier is invoked with
`"watch this show"` alone (not the combined text), the saved row's
original_url is none (not the parked link), and the parked row is still
sitting unconsumed in the table — contradicting the claim on every point.
The combine-and-override behaviour the claim (and the code's own comments)
describe is the intent; the mismatched timestamp formats are the slip.
-/
theorem C1_timestamp_mismatch :
    (handle_sms
      (handle_sms ⟨[], 1⟩ [] ("https://netflix.com/title/123".data) ("alice".data)
        ⟨2026, 10, 12, 11, 0, 0, 0⟩ ⟨2026, 10, 12, 11, 0, 0, 0⟩
        (fun _ => ClassifierResp.json (PyVal.vdict
          [(("type".data), PyVal.vstr ("save".data)),
            (("category".data), PyVal.vstr ("content".data)),
            (("title".data), PyVal.vstr ("Show".data))]))
        (fun _ _ => [])).pending
      (handle_sms ⟨[], 1⟩ [] ("https://netflix.com/title/123".data) ("alice".data)
        ⟨2026, 10, 12, 11, 0, 0, 0⟩ ⟨2026, 10, 12, 11, 0, 0, 0⟩
        (fun _ => ClassifierResp.json (PyVal.vdict
          [(("type".data), PyVal.vstr ("save".data)),
            (("category".data), PyVal.vstr ("content".data)),
            (("title".data), PyVal.vstr ("Show".data))]))
        (fun _ _ => [])).items
      ("watch this show".data) ("alice".data)
      ⟨2026, 10, 12, 11, 0, 30, 0⟩ ⟨2026, 10, 12, 11, 0, 30, 0⟩
      (fun _ => ClassifierResp.json (PyVal.vdict
        [(("type".data), PyVal.vstr ("save".data)),
          (("category".data), PyVal.vstr ("content".data)),
          (("title".data), PyVal.vstr ("Show".data))]))
      (fun _ _ => [])).classifierInput = some ("watch this show".data) ∧
    (∃ it : Item,
      (handle_sms
        (handle_sms ⟨[], 1⟩ [] ("https://netflix.com/title/123".data) ("alice".data)
          ⟨2026, 10, 12, 11, 0, 0, 0⟩ ⟨2026, 10, 12, 11, 0, 0, 0⟩
          (fun _ => ClassifierResp.json (PyVal.vdict
            [(("type".data), PyVal.vstr ("save".data)),
              (("category".data), PyVal.vstr ("content".data)),
              (("title".data), PyVal.vstr ("Show".data))]))
          (fun _ _ => [])).pending
        (handle_sms ⟨[], 1⟩ [] ("https://netflix.com/title/123".data) ("alice".data)
          ⟨2026, 10, 12, 11, 0, 0, 0⟩ ⟨2026, 10, 12, 11, 0, 0, 0⟩
          (fun _ => ClassifierResp.json (PyVal.vdict
            [(("type".data), PyVal.vstr ("save".data)),
              (("category".data), PyVal.vstr ("content".data)),
              (("title".data), PyVal.vstr ("Show".data))]))
          (fun _ _ => [])).items
        ("watch this show".data) ("alice".data)
        ⟨2026, 10, 12, 11, 0, 30, 0⟩ ⟨2026, 10, 12, 11, 0, 30, 0⟩
        (fun _ => ClassifierResp.json (PyVal.vdict
          [(("type".data), PyVal.vstr ("save".data)),
            (("category".data), PyVal.vstr ("content".data)),
            (("title".data), PyVal.vstr ("Show".data))]))
        (fun _ _ => [])).items = [it] ∧
      it.original_url = none) ∧
    (handle_sms
      (handle_sms ⟨[], 1⟩ [] ("https://netflix.com/title/123".data) ("alice".data)
        ⟨2026, 10, 12, 11, 0, 0, 0⟩ ⟨2026, 10, 12, 11, 0, 0, 0⟩
        (fun _ => ClassifierResp.json (PyVal.vdict
          [(("type".data), PyVal.vstr ("save".data)),
            (("category".data), PyVal.vstr ("content".data)),
            (("title".data), PyVal.vstr ("Show".data))]))
        (fun _ _ => [])).pending
      (handle_sms ⟨[], 1⟩ [] ("https://netflix.com/title/123".data) ("alice".data)
        ⟨2026, 10, 12, 11, 0, 0, 0⟩ ⟨2026, 10, 12, 11, 0, 0, 0⟩
        (fun _ => ClassifierResp.json (PyVal.vdict
          [(("type".data), PyVal.vstr ("save".data)),
            (("category".data), PyVal.vstr ("content".data)),
            (("title".data), PyVal.vstr ("Show".data))]))
        (fun _ _ => [])).items
      ("watch this show".data) ("alice".data)
      ⟨2026, 10, 12, 11, 0, 30, 0⟩ ⟨2026, 10, 12, 11, 0, 30, 0⟩
      (fun _ => ClassifierResp.json (PyVal.vdict
        [(("type".data), PyVal.vstr ("save".data)),
          (("category".data), PyVal.vstr ("content".data)),
          (("title".data), PyVal.vstr ("Show".data))]))
      (fun _ _ => [])).pending.entries =
      [⟨1, ("https://netflix.com/title/123".data), ("alice".data),
        ("2026-10-12 11:00:00".data)⟩] :=
  ⟨rfl, ⟨_, rfl, rfl⟩, rfl⟩

/--
C9: a classifier result typed `query` with no `question` field answers using
the original inbound body — not the combined message — so a just-consumed
pending link is dropped from the question text.
-/
theorem C9_question_fallback (ps : PendingState) (items : List Item)
    (body s : List Char) (nowUtc nowLocal : PyDateTime)
    (oracle : List Char → ClassifierResp)
    (answerer : PyVal → List Item → List Char) (L : List Char) (ps2 : PendingState)
    (d : List (List Char × PyVal))
    (h2 : (is_url_only body).1 = false)
    (hp : get_pending_url s ps nowLocal = (some L, ps2))
    (ho : oracle (body ++ (" ".data) ++ L) = ClassifierResp.json (PyVal.vdict d))
    (hq : pyEqStr (dget d ("type".data)) ("query".data) = true)
    (hk : dlookup d ("question".data) = none) :
    (handle_sms ps items body s nowUtc nowLocal oracle answerer).classifierInput =
      some (body ++ (" ".data) ++ L) ∧
    (handle_sms ps items body s nowUtc nowLocal oracle answerer).queryQuestion =
      some (PyVal.vstr body) ∧
    ¬((handle_sms ps items body s nowUtc nowLocal oracle answerer).queryQuestion =
      some (PyVal.vstr (body ++ (" ".data) ++ L))) := by
  rw [handle_sms_text_pending h2 hp, ho]
  dsimp only
  unfold dispatch
  dsimp only
  rw [if_pos hq]
  have hqd : dgetD d ("question".data) (PyVal.vstr body) = PyVal.vstr body := by
    unfold dgetD
    rw [hk]
  dsimp only
  rw [hqd]
  refine ⟨rfl, rfl, ?_⟩
  intro hcon
  simp only [Option.some.injEq, PyVal.vstr.injEq, List.append_assoc] at hcon
  have h0 : body ++ ([] : List Char) = body ++ ((" ".data) ++ L) := by
    rw [List.append_nil]
    exact hcon
  have h1 := List.append_cancel_left h0
  rw [show (" ".data) = (' ' :: ([] : List Char)) from rfl] at h1
  simp at h1

/-- Witness for C9 at a concrete pending link and question-free query dict.
The take succeeds because the row was stamped just after UTC midnight
(`2026-10-13 00:00:05`) while the lookup's threshold still carries the
previous date (`2026-10-12T23:59:00`), one of the configurations in which the
program's text comparison does fire. -/
theorem C9_witness :
    get_pending_url ("alice".data)
        (save_pending_url ("https://a.example/x".data) ("alice".data) ⟨[], 1⟩
          ⟨2026, 10, 13, 0, 0, 5, 0⟩)
        ⟨2026, 10, 13, 0, 1, 0, 0⟩ =
      (some ("https://a.example/x".data), ⟨[], 2⟩) ∧
    (handle_sms (save_pending_url ("https://a.example/x".data) ("alice".data) ⟨[], 1⟩
        ⟨2026, 10, 13, 0, 0, 5, 0⟩)
      [] ("what should I watch".data) ("alice".data)
      ⟨2026, 10, 13, 0, 1, 0, 0⟩ ⟨2026, 10, 13, 0, 1, 0, 0⟩
      (fun _ => ClassifierResp.json (PyVal.vdict
        [(("type".data), PyVal.vstr ("query".data))]))
      (fun _ _ => [])).queryQuestion = some (PyVal.vstr ("what should I watch".data)) :=
  ⟨by decide,
    (C9_question_fallback
      (save_pending_url ("https://a.example/x".data) ("alice".data) ⟨[], 1⟩
        ⟨2026, 10, 13, 0, 0, 5, 0⟩) []
      ("what should I watch".data) ("alice".data)
      ⟨2026, 10, 13, 0, 1, 0, 0⟩ ⟨2026, 10, 13, 0, 1, 0, 0⟩
      (fun _ => ClassifierResp.json (PyVal.vdict
        [(("type".data), PyVal.vstr ("query".data))]))
      (fun _ _ => []) ("https://a.example/x".data) ⟨[], 2⟩
      [(("type".data), PyVal.vstr ("query".data))]
      (by decide) (by decide) rfl (by decide) rfl).2.1⟩

/-- The facts-fallback dict always saves as a facts row captioned with the
combined message. -/
theorem dispatch_facts (ps2 : PendingState) (items : List Item)
    (body combined s : List Char) (pending : Option (List Char))
    (answerer : PyVal → List Item → List Char) :
    dispatch (PyVal.vdict (factsFallback combined)) ps2 items body combined s
        pending answerer =
      ⟨ps2,
        items ++ [⟨DbVal.dbText ("facts".data), DbVal.dbNull, DbVal.dbNull, DbVal.dbNull,
          DbVal.dbNull, DbVal.dbNull, DbVal.dbText combined, pyOrUrl pending combined,
          combined, s⟩],
        ("✓ Saved: ".data) ++ combined.take 50 ++ ("...".data), some combined, none⟩ :=
  rfl

/--
C3 counterexample: the classifier answers with valid JSON that matches no
schema (the JSON number 42).  The claim demands a facts-category save and no
error reply; the code raises `AttributeError` on `result.get`, so the generic
failure text is sent and nothing is persisted.
-/
theorem C3_counterexample :
    handle_sms ⟨[], 1⟩ [] ("hello there".data) ("alice".data)
        ⟨2026, 10, 12, 11, 0, 0, 0⟩ ⟨2026, 10, 12, 11, 0, 0, 0⟩
        (fun _ => ClassifierResp.json (PyVal.vint 42)) (fun _ _ => []) =
      ⟨⟨[], 1⟩, [], genericErr, some ("hello there".data), none⟩ := rfl

/--
C3 (amended): only non-JSON classifier output degrades to a facts-category
save captioned with the combined message, with no error surfaced; valid JSON
is not schema-validated — a non-object JSON value instead raises inside the
handler and the sender receives the generic failure reply.
-/
theorem C3_badjson_amended (ps : PendingState) (items : List Item)
    (body s : List Char) (nowUtc nowLocal : PyDateTime)
    (answerer : PyVal → List Item → List Char)
    (h2 : (is_url_only body).1 = false) :
    ∃ (c : List Char) (it : Item),
      (handle_sms ps items body s nowUtc nowLocal (fun _ => ClassifierResp.badJson)
        answerer).classifierInput = some c ∧
      (handle_sms ps items body s nowUtc nowLocal (fun _ => ClassifierResp.badJson)
        answerer).items = items ++ [it] ∧
      it.category = DbVal.dbText ("facts".data) ∧
      it.caption = DbVal.dbText c ∧
      (handle_sms ps items body s nowUtc nowLocal (fun _ => ClassifierResp.badJson)
        answerer).reply = ("✓ Saved: ".data) ++ c.take 50 ++ ("...".data) := by
  cases hget : get_pending_url s ps nowLocal with
  | mk p0 ps2 =>
    cases p0 with
    | some L =>
      rw [handle_sms_text_pending h2 hget]
      dsimp only
      rw [dispatch_facts]
      exact ⟨body ++ (" ".data) ++ L, _, rfl, rfl, rfl, rfl, rfl⟩
    | none =>
      rw [handle_sms_text_none h2 hget]
      dsimp only
      rw [dispatch_facts]
      exact ⟨body, _, rfl, rfl, rfl, rfl, rfl⟩

/-- Witness for C3's amended non-JSON fallback at a concrete message. -/
theorem C3_witness :
    (is_url_only ("remember the pasta trick".data)).1 = false ∧
    (∃ (c : List Char) (it : Item),
      (handle_sms ⟨[], 1⟩ [] ("remember the pasta trick".data) ("bob".data)
        ⟨2026, 10, 12, 11, 0, 0, 0⟩ ⟨2026, 10, 12, 11, 0, 0, 0⟩
        (fun _ => ClassifierResp.badJson) (fun _ _ => [])).classifierInput = some c ∧
      (handle_sms ⟨[], 1⟩ [] ("remember the pasta trick".data) ("bob".data)
        ⟨2026, 10, 12, 11, 0, 0, 0⟩ ⟨2026, 10, 12, 11, 0, 0, 0⟩
        (fun _ => ClassifierResp.badJson) (fun _ _ => [])).items = [] ++ [it] ∧
      it.category = DbVal.dbText ("facts".data) ∧
      it.caption = DbVal.dbText c ∧
      (handle_sms ⟨[], 1⟩ [] ("remember the pasta trick".data) ("bob".data)
        ⟨2026, 10, 12, 11, 0, 0, 0⟩ ⟨2026, 10, 12, 11, 0, 0, 0⟩
        (fun _ => ClassifierResp.badJson) (fun _ _ => [])).reply =
        ("✓ Saved: ".data) ++ c.take 50 ++ ("...".data)) :=
  ⟨by decide,
    C3_badjson_amended ⟨[], 1⟩ [] ("remember the pasta trick".data) ("bob".data)
      ⟨2026, 10, 12, 11, 0, 0, 0⟩ ⟨2026, 10, 12, 11, 0, 0, 0⟩
      (fun _ _ => []) (by decide)⟩

/--
C8 counterexample: a content save whose `platform` field is present as JSON
null.  The claim says the confirmation substitutes "saved"; the code's
`data.get('platform', 'saved')` defaults only for an absent key, so Python
renders `None` and the sender sees "✓ Saved: X (None)".
-/
theorem C8_counterexample :
    (handle_sms ⟨[], 1⟩ [] ("save this please".data) ("alice".data)
      ⟨2026, 10, 12, 11, 0, 0, 0⟩ ⟨2026, 10, 12, 11, 0, 0, 0⟩
      (fun _ => ClassifierResp.json (PyVal.vdict
        [(("type".data), PyVal.vstr ("save".data)),
          (("category".data), PyVal.vstr ("content".data)),
          (("title".data), PyVal.vstr ("X".data)),
          (("platform".data), PyVal.vnone)]))
      (fun _ _ => [])).reply = ("✓ Saved: X (None)".data) := rfl

/--
C8 (amended): for a content save the confirmation is
"✓ Saved: {title} ({platform})" where "saved" is substituted only when the
platform field is absent (a present null renders as "None"), and the title
falls back to the first 50 characters of the caption when the title field is
absent (or otherwise falsy).
-/
theorem C8_content_format (d : List (List Char × PyVal)) (origMsg sender : List Char)
    (urlOverride : Option (List Char)) (items : List Item) (tv : PyVal)
    (hcat : dget d ("category".data) = PyVal.vstr ("content".data))
    (hs : scalarFields d = true)
    (hti : titleOf d = Except.ok tv)
    (hplat : dlookup d ("platform".data) = none) :
    (save_item d origMsg sender urlOverride items).2 =
      Except.ok (("✓ Saved: ".data) ++ pyStr tv ++ (" (saved)".data)) ∧
    (dget d ("title".data) = PyVal.vnone →
      ∀ cap : List Char, dgetD d ("caption".data) (PyVal.vstr []) = PyVal.vstr cap →
        tv = PyVal.vstr (cap.take 50)) := by
  constructor
  · unfold save_item
    rw [buildItem_scalar hs]
    dsimp only
    rw [hti]
    dsimp only
    rw [if_pos (by rw [hcat]; decide)]
    have hpd : dgetD d ("platform".data) (PyVal.vstr ("saved".data)) =
        PyVal.vstr ("saved".data) := by
      unfold dgetD
      rw [hplat]
    rw [hpd]
    dsimp only
    congr 1
    simp [pyStr]
  · intro hno cap hcap
    unfold titleOf at hti
    rw [hno] at hti
    rw [if_neg (by decide)] at hti
    rw [hcap] at hti
    unfold pySlice at hti
    simp only [Except.ok.injEq] at hti
    exact hti.symm

/-- Witness for C8's amended formatter: platform and title both absent. -/
theorem C8_witness :
    dget [(("type".data), PyVal.vstr ("save".data)),
        (("category".data), PyVal.vstr ("content".data)),
        (("caption".data), PyVal.vstr ("A good chess documentary".data))]
      ("category".data) = PyVal.vstr ("content".data) ∧
    (save_item [(("type".data), PyVal.vstr ("save".data)),
        (("category".data), PyVal.vstr ("content".data)),
        (("caption".data), PyVal.vstr ("A good chess documentary".data))]
      ("watch it".data) ("alice".data) none []).2 =
      Except.ok (("✓ Saved: ".data) ++
        pyStr (PyVal.vstr (("A good chess documentary".data).take 50)) ++
        (" (saved)".data)) :=
  ⟨rfl,
    (C8_content_format [(("type".data), PyVal.vstr ("save".data)),
        (("category".data), PyVal.vstr ("content".data)),
        (("caption".data), PyVal.vstr ("A good chess documentary".data))]
      ("watch it".data) ("alice".data) none []
      (PyVal.vstr (("A good chess documentary".data).take 50))
      rfl (by decide) rfl rfl).1⟩

/--
C10: a save whose category is outside the three formatted ones — the string
"facts", an unknown string, or null — is persisted with that category value
verbatim and confirmed in the facts-style format "✓ Saved: {title}...".
-/
theorem C10_unknown_category (d : List (List Char × PyVal)) (origMsg sender : List Char)
    (urlOverride : Option (List Char)) (items : List Item) (tv : PyVal)
    (hs : scalarFields d = true)
    (hti : titleOf d = Except.ok tv)
    (hcat : dget d ("category".data) = PyVal.vnone ∨
      ∃ c : List Char, dget d ("category".data) = PyVal.vstr c ∧
        ¬(c = ("content".data)) ∧ ¬(c = ("food".data)) ∧ ¬(c = ("events".data))) :
    (∃ it : Item, (save_item d origMsg sender urlOverride items).1 = items ++ [it] ∧
      it.category = toDbV (dget d ("category".data))) ∧
    (save_item d origMsg sender urlOverride items).2 =
      Except.ok (("✓ Saved: ".data) ++ pyStr tv ++ ("...".data)) := by
  have hb := @buildItem_scalar d origMsg sender urlOverride hs
  have hc1 : pyEqStr (dget d ("category".data)) ("content".data) = false := by
    rcases hcat with h | ⟨c, hc, h1, _, _⟩
    · rw [h]; rfl
    · rw [hc]
      unfold pyEqStr
      simp [h1]
  have hc2 : pyEqStr (dget d ("category".data)) ("food".data) = false := by
    rcases hcat with h | ⟨c, hc, _, h2, _⟩
    · rw [h]; rfl
    · rw [hc]
      unfold pyEqStr
      simp [h2]
  have hc3 : pyEqStr (dget d ("category".data)) ("events".data) = false := by
    rcases hcat with h | ⟨c, hc, _, _, h3⟩
    · rw [h]; rfl
    · rw [hc]
      unfold pyEqStr
      simp [h3]
  constructor
  · exact ⟨_, save_item_items hb, rfl⟩
  · unfold save_item
    rw [hb]
    dsimp only
    rw [hti]
    dsimp only
    rw [if_neg (by rw [hc1]; exact Bool.false_ne_true),
      if_neg (by rw [hc2]; exact Bool.false_ne_true),
      if_neg (by rw [hc3]; exact Bool.false_ne_true)]

/-- Witness for C10 with the category string "facts" and a truthy title. -/
theorem C10_witness :
    scalarFields [(("type".data), PyVal.vstr ("save".data)),
        (("category".data), PyVal.vstr ("facts".data)),
        (("title".data), PyVal.vstr ("Bees sleep".data))] = true ∧
    (∃ it : Item,
      (save_item [(("type".data), PyVal.vstr ("save".data)),
          (("category".data), PyVal.vstr ("facts".data)),
          (("title".data), PyVal.vstr ("Bees sleep".data))]
        ("bees sleep in flowers".data) ("bob".data) none []).1 = [] ++ [it] ∧
      it.category = toDbV (dget [(("type".data), PyVal.vstr ("save".data)),
          (("category".data), PyVal.vstr ("facts".data)),
          (("title".data), PyVal.vstr ("Bees sleep".data))] ("category".data))) :=
  ⟨by decide,
    (C10_unknown_category [(("type".data), PyVal.vstr ("save".data)),
        (("category".data), PyVal.vstr ("facts".data)),
        (("title".data), PyVal.vstr ("Bees sleep".data))]
      ("bees sleep in flowers".data) ("bob".data) none []
      (PyVal.vstr ("Bees sleep".data)) (by decide) rfl
      (Or.inr ⟨("facts".data), rfl, by decide, by decide, by decide⟩)).1⟩

theorem distinctSenders_filter (p : Entry → Bool) :
    ∀ {l : List Entry}, distinctSenders l = true → distinctSenders (l.filter p) = true := by
  intro l
  induction l with
  | nil => intro h; exact h
  | cons e rest ih =>
    intro h
    simp only [distinctSenders, Bool.and_eq_true] at h
    rw [List.filter_cons]
    by_cases hp : p e = true
    · rw [if_pos hp]
      simp only [distinctSenders, Bool.and_eq_true]
      refine ⟨?_, ih h.2⟩
      rw [List.all_eq_true]
      intro a ha
      exact (List.all_eq_true.mp h.1) a (List.mem_filter.mp ha).1
    · rw [if_neg hp]
      exact ih h.2

theorem distinctSenders_append_one {e : Entry} :
    ∀ {l : List Entry}, distinctSenders l = true →
      (∀ a ∈ l, ¬(a.sender = e.sender)) → distinctSenders (l ++ [e]) = true := by
  intro l
  induction l with
  | nil => intro _ _; simp [distinctSenders]
  | cons b rest ih =>
    intro hl he
    simp only [distinctSenders, Bool.and_eq_true] at hl
    simp only [List.cons_append, distinctSenders, Bool.and_eq_true]
    constructor
    · rw [List.all_eq_true]
      intro a ha
      cases List.mem_append.mp ha with
      | inl hin => exact (List.all_eq_true.mp hl.1) a hin
      | inr hin =>
        have hae : a = e := by simpa using hin
        subst hae
        have hbe := he b (by simp)
        simp only [decide_eq_true_eq]
        intro hcon
        exact hbe (hcon.symm)
    · exact ih hl.2 (fun a ha => he a (by simp [ha]))

theorem pickLatest_mem : ∀ {l : List Entry} {a : Entry}, pickLatest l = some a → a ∈ l := by
  intro l
  induction l with
  | nil => intro a h; simp [pickLatest] at h
  | cons e rest ih =>
    intro a h
    simp only [pickLatest] at h
    cases hp : pickLatest rest with
    | none =>
      rw [hp] at h
      have : e = a := by simpa using h
      rw [← this]
      simp
    | some b =>
      rw [hp] at h
      dsimp only at h
      by_cases hgt : lexLt e.createdAt b.createdAt = true
      · rw [if_pos hgt] at h
        have : b = a := by simpa using h
        rw [← this]
        simp [ih hp]
      · rw [if_neg hgt] at h
        have : e = a := by simpa using h
        rw [← this]
        simp

theorem mem_len_le_one {α : Type} {l : List α} (h : l.length ≤ 1) {a b : α}
    (ha : a ∈ l) (hb : b ∈ l) : a = b := by
  cases l with
  | nil => simp at ha
  | cons x rest =>
    cases rest with
    | nil =>
      have h1 : a = x := by simpa using ha
      have h2 : b = x := by simpa using hb
      rw [h1, h2]
    | cons y r => simp at h

theorem distinct_filter_sender :
    ∀ {l : List Entry}, distinctSenders l = true →
      ∀ s, (l.filter (fun e => decide (e.sender = s))).length ≤ 1 := by
  intro l
  induction l with
  | nil => intro _ s; simp
  | cons e rest ih =>
    intro h s
    simp only [distinctSenders, Bool.and_eq_true] at h
    rw [List.filter_cons]
    by_cases hp : e.sender = s
    · rw [if_pos (by simp [hp])]
      have hnil : rest.filter (fun a => decide (a.sender = s)) = [] := by
        rw [List.filter_eq_nil_iff]
        intro a ha
        have hne := (List.all_eq_true.mp h.1) a ha
        simp only [decide_eq_true_eq] at hne ⊢
        rw [← hp]
        exact hne
      rw [hnil]
      simp
    · rw [if_neg (by simp [hp])]
      exact ih h.2 s

theorem atMostOne_park (ps : PendingState) (s L : List Char) (t : PyDateTime)
    (h : AtMostOne ps) : AtMostOne (save_pending_url L s ps t) := by
  unfold AtMostOne save_pending_url at *
  dsimp only
  apply distinctSenders_append_one (distinctSenders_filter _ h)
  intro a ha
  have := (List.mem_filter.mp ha).2
  simpa using this

theorem atMostOne_take (ps : PendingState) (s : List Char) (t : PyDateTime)
    (h : AtMostOne ps) : AtMostOne (get_pending_url s ps t).2 := by
  unfold AtMostOne get_pending_url at *
  dsimp only
  cases hp : pickLatest (ps.entries.filter
      fun e => decide (e.sender = s) &&
        lexLt (fmtIso (dtSubTwoMinutes t)) e.createdAt) with
  | none => exact h
  | some row => exact distinctSenders_filter _ h

theorem take_deletes (ps : PendingState) (s : List Char) (t : PyDateTime)
    (u : List Char)
    (h : AtMostOne ps) (hu : (get_pending_url s ps t).1 = some u) :
    (get_pending_url s ps t).2.entries.filter (fun e => decide (e.sender = s)) = [] := by
  unfold get_pending_url at hu ⊢
  dsimp only at hu ⊢
  cases hp : pickLatest (ps.entries.filter
      fun e => decide (e.sender = s) &&
        lexLt (fmtIso (dtSubTwoMinutes t)) e.createdAt) with
  | none =>
    rw [hp] at hu
    simp at hu
  | some row =>
    have hrow := pickLatest_mem hp
    rw [List.mem_filter] at hrow
    have hrs : row.sender = s := by
      have := hrow.2
      simp only [Bool.and_eq_true, decide_eq_true_eq] at this
      exact this.1
    dsimp only
    rw [List.filter_eq_nil_iff]
    intro a ha
    rw [List.mem_filter] at ha
    simp only [decide_eq_true_eq]
    intro hsa
    have hamem : a ∈ ps.entries.filter (fun e => decide (e.sender = s)) := by
      rw [List.mem_filter]
      exact ⟨ha.1, by simp [hsa]⟩
    have hrmem : row ∈ ps.entries.filter (fun e => decide (e.sender = s)) := by
      rw [List.mem_filter]
      exact ⟨hrow.1, by simp [hrs]⟩
    have har : a = row := mem_len_le_one (distinct_filter_sender h s) hamem hrmem
    have := ha.2
    rw [har] at this
    simp at this

theorem filter_sender_of_filter_not (l : List Entry) (s : List Char) :
    (l.filter (fun e => decide ¬(e.sender = s))).filter
      (fun e => decide (e.sender = s)) = [] := by
  rw [List.filter_eq_nil_iff]
  intro a ha
  rw [List.mem_filter] at ha
  have hns : ¬(a.sender = s) := by simpa using ha.2
  simp [hns]

/--
C6 counterexample: `park(s, L1); park(s, L2)` followed by an in-TTL
`takeIfLive(s)` — 30 seconds after the second park, all on one date — returns
none, not `L2`: the stored space-separated stamp never exceeds the
`T`-separated threshold while the date prefixes agree, so the claim's clause
"a subsequent in-TTL takeIfLive(s) returns L2" is false of the code.
-/
theorem C6_counterexample :
    (get_pending_url ("bob".data)
      (save_pending_url ("https://a.example/2".data) ("bob".data)
        (save_pending_url ("https://a.example/1".data) ("bob".data) ⟨[], 1⟩
          ⟨2026, 10, 12, 11, 0, 0, 0⟩)
        ⟨2026, 10, 12, 11, 0, 5, 0⟩)
      ⟨2026, 10, 12, 11, 0, 35, 0⟩).1 = none := by decide

/--
C6 (amended): the pending store keeps at most one row per sender — the
invariant is preserved by `park` and by `takeIfLive`; `park` deletes all of
the sender's rows before inserting the single fresh one stamped by the
database clock; `takeIfLive` deletes the row it returns; and after
`park(s,L1); park(s,L2)` only the `L2` row remains, so a subsequent
`takeIfLive(s)` returns either `L2` or none — never `L1` — with none possible
even inside the TTL because of the timestamp-format mismatch.
-/
theorem C6_store_amended :
    (∀ ps s L t, AtMostOne ps → AtMostOne (save_pending_url L s ps t)) ∧
    (∀ ps s t, AtMostOne ps → AtMostOne (get_pending_url s ps t).2) ∧
    (∀ ps, AtMostOne ps →
      ∀ s, (ps.entries.filter (fun e => decide (e.sender = s))).length ≤ 1) ∧
    (∀ ps s L t, (save_pending_url L s ps t).entries =
      ps.entries.filter (fun e => decide ¬(e.sender = s)) ++
        [⟨ps.nextId, L, s, fmtSql t⟩]) ∧
    (∀ ps s t u, AtMostOne ps → (get_pending_url s ps t).1 = some u →
      (get_pending_url s ps t).2.entries.filter (fun e => decide (e.sender = s)) = []) ∧
    (∀ ps s L1 L2 t1 t2,
      (save_pending_url L2 s (save_pending_url L1 s ps t1) t2).entries.filter
        (fun e => decide (e.sender = s)) = [⟨ps.nextId + 1, L2, s, fmtSql t2⟩]) ∧
    (∀ ps s L1 L2 t1 t2 t,
      (get_pending_url s (save_pending_url L2 s (save_pending_url L1 s ps t1) t2) t).1 =
          some L2 ∨
      (get_pending_url s (save_pending_url L2 s (save_pending_url L1 s ps t1) t2) t).1 =
          none) ∧
    (∀ ps s L1 L2 t1 t2 t, ¬(L1 = L2) →
      ¬((get_pending_url s
          (save_pending_url L2 s (save_pending_url L1 s ps t1) t2) t).1 = some L1)) := by
  refine ⟨atMostOne_park, atMostOne_take, ?_, ?_, take_deletes, ?_, ?_, ?_⟩
  · intro ps h s
    exact distinct_filter_sender h s
  · intro ps s L t
    rfl
  · intro ps s L1 L2 t1 t2
    unfold save_pending_url
    dsimp only
    rw [List.filter_append, filter_sender_of_filter_not, List.nil_append]
    simp
  · intro ps s L1 L2 t1 t2 t
    rw [park_then_take]
    by_cases hc : lexLt (fmtIso (dtSubTwoMinutes t)) (fmtSql t2) = true
    · rw [if_pos hc]
      exact Or.inl rfl
    · rw [if_neg hc]
      exact Or.inr rfl
  · intro ps s L1 L2 t1 t2 t hne hcon
    rw [park_then_take] at hcon
    by_cases hc : lexLt (fmtIso (dtSubTwoMinutes t)) (fmtSql t2) = true
    · rw [if_pos hc] at hcon
      have : L2 = L1 := by simpa using hcon
      exact hne this.symm
    · rw [if_neg hc] at hcon
      simp at hcon

/-- Witness for C6's amended store discipline: park preservation on a
concrete table, a consuming take (cross-midnight stamps, where the text
comparison fires) leaving no row of the sender, and the never-the-overwritten-
link property for a same-date replacement. -/
theorem C6_witness :
    AtMostOne ⟨[], 1⟩ ∧
    AtMostOne (save_pending_url ("https://a.example/1".data) ("bob".data) ⟨[], 1⟩
      ⟨2026, 10, 12, 11, 0, 0, 0⟩) ∧
    (get_pending_url ("bob".data)
      (save_pending_url ("https://a.example/1".data) ("bob".data) ⟨[], 1⟩
        ⟨2026, 10, 13, 0, 0, 5, 0⟩)
      ⟨2026, 10, 13, 0, 1, 0, 0⟩).2.entries.filter
        (fun e => decide (e.sender = ("bob".data))) = [] ∧
    ¬((get_pending_url ("bob".data)
      (save_pending_url ("https://a.example/2".data) ("bob".data)
        (save_pending_url ("https://a.example/1".data) ("bob".data) ⟨[], 1⟩
          ⟨2026, 10, 12, 11, 0, 0, 0⟩)
        ⟨2026, 10, 12, 11, 0, 5, 0⟩)
      ⟨2026, 10, 12, 11, 0, 35, 0⟩).1 = some ("https://a.example/1".data)) :=
  ⟨by decide,
    C6_store_amended.1 ⟨[], 1⟩ ("bob".data) ("https://a.example/1".data)
      ⟨2026, 10, 12, 11, 0, 0, 0⟩ (by decide),
    C6_store_amended.2.2.2.2.1
      (save_pending_url ("https://a.example/1".data) ("bob".data) ⟨[], 1⟩
        ⟨2026, 10, 13, 0, 0, 5, 0⟩)
      ("bob".data) ⟨2026, 10, 13, 0, 1, 0, 0⟩ ("https://a.example/1".data)
      (by decide) (by decide),
    C6_store_amended.2.2.2.2.2.2.2 ⟨[], 1⟩ ("bob".data) ("https://a.example/1".data)
      ("https://a.example/2".data) ⟨2026, 10, 12, 11, 0, 0, 0⟩
      ⟨2026, 10, 12, 11, 0, 5, 0⟩ ⟨2026, 10, 12, 11, 0, 35, 0⟩ (by decide)⟩

end SmsAgent
